import Mathlib

/-!
Verification of the model-routing and relay gateway of the ChatGPT-Clone
backend (`service_llm/llm.py` and `service_api/api.py`), shallowly embedded
in Lean.  File-system, process and network effects are made explicit:

* the JSON config file (`llm.json`) is the `Config` value threaded through
  the handlers; `configStore` being invoked is represented by the handler
  returning the stored configuration;
* the outcome of `subprocess.Popen` in `run_llm` is an oracle
  (`Nat → Option Nat`, indexed by the registry position of the entry being
  started: `some p` means Popen returned a process with pid `p`, `none`
  means Popen raised);
* the single outgoing `httpx` call of `relay` is an oracle
  `NetRequest → NetResult`;
* the two `pycurl` calls of the gateway `query` handler are two `Json`
  parameters holding the parsed bodies those calls produced.
-/

namespace LlmSvc

/-- One entry of the `model` list of the llm.json configuration, as read and
mutated by `llm.py` (fields `name`, `file`, `host`, `port`, `auth`, `key`,
`pid`).  `file = none` means a remote-only model; `pid` is the recorded
process handle of a locally started llama.cpp server. -/
structure ModelEntry where
  name : String
  file : Option String
  host : String
  port : Nat
  auth : String
  key : String
  pid : Option Nat
deriving DecidableEq

/-- The `api` object of the llm.json configuration: own host/port, the
active-model pointer `model`, and the pid of the API service process. -/
structure ApiConfig where
  host : String
  port : Nat
  model : String
  pid : Option Nat
deriving DecidableEq

/-- The llm.json configuration: `{ api: {...}, model: [...] }`. -/
structure Config where
  api : ApiConfig
  model : List ModelEntry
deriving DecidableEq

/-- The quote stripping at the top of the `model` handler:
`model.replace('"', '').replace("'", '')`.  Deleting every double quote and
then every single quote equals one pass deleting both (character codes 34
and 39). -/
def stripQuotes (s : String) : String :=
  String.mk (s.data.filter (fun c => c != Char.ofNat 34 && c != Char.ofNat 39))

/-- The active-model scan of `configLoad` in llm.py: the loop
`for m, i in zip(config['model'], range(...)): if m['name']==config['api']['model']: model_index = i`
keeps the LAST matching index, i.e. the last entry whose name equals the
active-model pointer.  When no entry matches, `model_index` is never bound
and `configLoad` raises `UnboundLocalError`; that crash is modelled by
`none` (the enclosing handler then aborts without storing anything). -/
def activeEntry (cfg : Config) : Option ModelEntry :=
  cfg.model.reverse.find? (fun e => e.name == cfg.api.model)

/-- Clearing the recorded process handle of one entry (`i['pid']=None`). -/
def clearPid (e : ModelEntry) : ModelEntry :=
  { e with pid := none }

/-- `terminate(config, model=True, api=False)` of llm.py: for every model
entry the recorded pid is killed (an external effect) and set to `None`;
the `api` part is untouched because `api=False`.  Entries whose pid is
already `None` are skipped by the source, which has the same effect on the
state as clearing them. -/
def terminateModels (cfg : Config) : Config :=
  { cfg with model := cfg.model.map clearPid }

/-- `run_llm(model, host, port, pid)` of llm.py, with the outcome of
`subprocess.Popen` supplied as `startResult`.  On success the new process
pid is returned; when Popen raises, the exception is logged and swallowed
and the `finally: return pid` clause returns the pid argument unchanged. -/
def run_llm (pid : Option Nat) (startResult : Option Nat) : Option Nat :=
  match startResult with
  | some p => some p
  | none => pid

/-- One iteration of the model-switch loop in the `model` handler, acting on
the (index, entry) pair produced by `zip(config['model'], range(...))`:
when the entry has the requested name and a backing file, its pid is set to
`run_llm(file, host, port, pid=entry.pid)` with `start i` the Popen outcome
for position `i`; otherwise the entry is unchanged. -/
def switchEntry (m : String) (start : Nat → Option Nat) (p : Nat × ModelEntry) : ModelEntry :=
  if p.2.name == m && p.2.file.isSome then
    { p.2 with pid := run_llm p.2.pid (start p.1) }
  else
    p.2

/-- The `PUT /model/{model}` handler (`model` in llm.py).  `cfg` is the
content of the config file at load time; `start` is the Popen oracle.
`none` models the `UnboundLocalError` crash of `configLoad` when the
active-model pointer names no entry (the handler aborts, `configStore` is
not reached).  `some (r, c)` means the handler called
`configStore(config_file, c)` and returned the boolean `r`.

Faithful to the source: the requested name is quote-stripped; if it equals
the active entry's name nothing changes and `True` is returned; otherwise
`terminate(config, model=True, api=False)` clears every pid, the loop sets
the response to `True` exactly when some entry carries the requested name,
starts the entry's process when it has a backing file, and sets
`config['api']['model']` to the requested name exactly when it was found. -/
def modelPut (modelArg : String) (start : Nat → Option Nat) (cfg : Config) :
    Option (Bool × Config) :=
  let m := stripQuotes modelArg
  match activeEntry cfg with
  | none => none
  | some act =>
    if act.name = m then
      some (true, cfg)
    else
      let cfg1 := terminateModels cfg
      let found := cfg1.model.any (fun e => e.name == m)
      some (found,
        { api := { cfg1.api with model := if found then m else cfg1.api.model },
          model := (List.enumFrom 0 cfg1.model).map (switchEntry m start) })

/-- An entry is a local one (backing file present) holding a live recorded
process handle. -/
def localLive (e : ModelEntry) : Bool :=
  e.file.isSome && e.pid.isSome

/-- Number of local entries (backing file present) holding a live recorded
process handle. -/
def liveLocal (cfg : Config) : Nat :=
  cfg.model.countP localLive

/-- The configuration state after one `PUT /model/{m}` call: the stored
configuration on success, the unchanged one when the handler crashed before
`configStore`. -/
def applyPut (m : String) (start : Nat → Option Nat) (cfg : Config) : Config :=
  match modelPut m start cfg with
  | some (_, c) => c
  | none => cfg

/-- The configuration state after a sequence of `PUT /model` calls executed
sequentially, each with its own requested name and Popen oracle. -/
def switchSeq (cfg : Config) (ops : List (String × (Nat → Option Nat))) : Config :=
  ops.foldl (fun c op => applyPut op.1 op.2 c) cfg

/-- The outgoing request assembled by the `relay` handler of llm.py: scheme
(`http`/`https`), target host and port of the active entry, the sub-path
after `/relay/`, the inbound method, the rewritten headers and the inbound
body. -/
structure NetRequest where
  scheme : String
  host : String
  port : Nat
  path : String
  method : String
  headers : List (String × String)
  body : String
deriving DecidableEq

/-- Outcome of the single `client.request` call inside `relay`: the backend
answered with a status, headers and body (whatever the status — httpx does
not raise on non-2xx), or the call raised (connection/timeout/transport
failure) with `str(e) = errText`.  The `except httpx.HTTPStatusError`
branch of the source is unreachable for `client.request`, which never
raises that type; the reachable handler is the generic
`except Exception` one. -/
inductive NetResult where
  | ok (status : Nat) (headers : List (String × String)) (body : String)
  | failed (errText : String)
deriving DecidableEq

/-- Result of the `relay` handler: either the HTTP response it constructs,
or the crash of `configLoad` (`UnboundLocalError` when the active-model
pointer names no entry), which FastAPI surfaces as an internal error before
any outgoing request exists. -/
inductive RelayResult where
  | noActiveModel
  | response (status : Nat) (headers : List (String × String)) (body : String)
deriving DecidableEq

/-- `headers.pop('host', None)` on the header dict: every binding of key
`k` is removed. -/
def dictRemove (k : String) (l : List (String × String)) : List (String × String) :=
  l.filter (fun p => p.1 != k)

/-- `headers[k] = v` on the header dict: an existing binding of `k` is
overwritten in place, otherwise the binding is appended at the end. -/
def dictSet (k v : String) : List (String × String) → List (String × String)
  | [] => [(k, v)]
  | p :: t => if p.1 = k then (k, v) :: t else p :: dictSet k v t

/-- The outgoing request the `relay` handler forwards for active entry `e`:
transport is plain `http` exactly when the entry's auth scheme is
`sso-key`, otherwise `https`; the URL is `host:port/path`; method and body
are the inbound ones; the headers are the inbound header dict with `host`
popped and `authorization` set to `"{auth} {key}"`. -/
def buildForward (e : ModelEntry) (method path : String)
    (inHeaders : List (String × String)) (body : String) : NetRequest :=
  { scheme := if e.auth = "sso-key" then "http" else "https"
    host := e.host
    port := e.port
    path := path
    method := method
    headers := dictSet "authorization" (e.auth ++ " " ++ e.key) (dictRemove "host" inHeaders)
    body := body }

/-- The `ANY /relay/{path}` handler of llm.py.  `cfg` is the config file
content, `inHeaders` the inbound header dict (`dict(request.headers)`,
lowercased keys), `net` the oracle for the single `client.request` call.
When `configLoad` finds no active entry the handler crashes before any
network call (the oracle is not consulted).  A backend answer is wrapped
unchanged into the FastAPI `Response`; a raised transport error `e` becomes
`Response(content=str(e), status_code=500)` (no headers argument). -/
def relay (cfg : Config) (method path : String) (inHeaders : List (String × String))
    (body : String) (net : NetRequest → NetResult) : RelayResult :=
  match activeEntry cfg with
  | none => RelayResult.noActiveModel
  | some e =>
    match net (buildForward e method path inHeaders body) with
    | NetResult.ok s h b => RelayResult.response s h b
    | NetResult.failed msg => RelayResult.response 500 [] msg

/-- Parsed JSON values, as produced by `json.loads` in `request` of api.py.
`obj` represents a Python dict (unique keys). -/
inductive Json where
  | null
  | bool (b : Bool)
  | num (n : Int)
  | str (s : String)
  | arr (elems : List Json)
  | obj (fields : List (String × Json))

/-- Python truthiness (`if (response):`) of a parsed JSON value: `None`,
`False`, `0`, `""`, `[]`, `{}` are falsy, everything else truthy. -/
def truthy : Json → Bool
  | .null => false
  | .bool b => b
  | .num n => n != 0
  | .str s => s != ""
  | .arr l => !l.isEmpty
  | .obj l => !l.isEmpty

/-- Python subscript `v[k]` with a string key: succeeds only on a dict that
has the key (`KeyError`/`TypeError` otherwise, modelled by `none`). -/
def getKey (k : String) : Json → Option Json
  | .obj fields => fields.lookup k
  | _ => none

/-- Python subscript `v[0]`: the first element of a list, the first
character of a non-empty string (Python string indexing), and an error on
anything else. -/
def getIdx0 : Json → Option Json
  | .arr (x :: _) => some x
  | .str s =>
    match s.data with
    | c :: _ => some (.str (String.mk [c]))
    | [] => none
  | _ => none

/-- The extraction `response['choices'][0]['message']['content']` in the
`query` handler; `none` models the raised `KeyError`/`IndexError`/
`TypeError` when the expected structure is absent. -/
def extractContent (v : Json) : Option Json :=
  ((getKey "choices" v).bind getIdx0).bind (fun w => (getKey "message" w).bind (getKey "content"))

/-- One conversation turn of the in-memory `history` list of api.py:
`{"role": ..., "content": ...}`.  The content is a `Json` value because the
handler's failure path appends the raw upstream object. -/
structure Turn where
  role : String
  content : Json

/-- One `historyStore(model, max_tokens, role, content)` call: the row
appended to the sqlite history table. -/
structure Row where
  model : String
  maxTokens : String
  role : String
  content : Json

/-- The `GET /query/{model}/{prompt}` handler of api.py (history and storage
effects made explicit).  `history0` is the in-memory history before the
call; `switchResp` and `compResp` are the parsed bodies returned by the two
`request(...)` calls (the `PUT /model/{model}` switch and the
`POST /relay/v1/chat/completions` completion); `request` itself never
raises (it catches everything and returns `None`, modelled as `Json.null`).

Returns (returned value, in-memory history afterwards, rows passed to
`historyStore` in order).  Faithful to the source: the prompt is appended
as a user turn to history and to the store; the switch response is only
logged; `response = response['choices'][0]['message']['content']` either
succeeds or raises inside the `try`, in which case `response` keeps the raw
completion body; a truthy `response` is appended as a system turn to the
in-memory history; `historyStore(..., role="system", content=response)` is
called unconditionally; `response` is returned. -/
def query (model prompt maxTokens : String) (history0 : List Turn)
    (_switchResp compResp : Json) : Json × List Turn × List Row :=
  let h1 := history0 ++ [⟨"user", Json.str prompt⟩]
  let rows1 : List Row := [⟨model, maxTokens, "user", Json.str prompt⟩]
  let response : Json :=
    match extractContent compResp with
    | some c => c
    | none => compResp
  let h2 := if truthy response then h1 ++ [⟨"system", response⟩] else h1
  let rows2 := rows1 ++ [⟨model, maxTokens, "system", response⟩]
  (response, h2, rows2)

/-! Helper lemmas about the registry operations. -/

/-- When the previous pid is already cleared (as it is after `terminate`),
`run_llm` returns exactly the Popen outcome: the new pid on success, `None`
on a swallowed start failure. -/
theorem run_llm_none (s : Option Nat) : run_llm none s = s := by
  cases s <;> rfl

/-- The entry found by the `configLoad` scan is a registry entry and carries
the active-model name. -/
theorem activeEntry_mem {cfg : Config} {act : ModelEntry}
    (h : activeEntry cfg = some act) :
    act ∈ cfg.model ∧ act.name = cfg.api.model := by
  unfold activeEntry at h
  refine ⟨List.mem_reverse.mp (List.mem_of_find?_eq_some h), ?_⟩
  have hp := List.find?_some h
  simp only [beq_iff_eq] at hp
  exact hp

/-- With unique registry names, at most one entry carries a given name. -/
theorem countP_name_le_one (m : String) :
    ∀ l : List ModelEntry, (l.map (fun e => e.name)).Nodup →
      l.countP (fun e => e.name == m) ≤ 1 := by
  intro l
  induction l with
  | nil => intro _; simp
  | cons e t ih =>
    intro hnd
    rw [List.map_cons, List.nodup_cons] at hnd
    rw [List.countP_cons]
    by_cases hm : e.name = m
    · have hz : t.countP (fun e => e.name == m) = 0 := by
        apply List.countP_eq_zero.mpr
        intro a ha hba
        exact hnd.1 (List.mem_map.mpr ⟨a, ha, (eq_of_beq hba).trans hm.symm⟩)
      simp [hz, hm]
    · have hb : (e.name == m) = false := beq_false_of_ne hm
      simp only [hb, if_false, Nat.add_zero]
      exact ih hnd.2

/-- The switch loop leaves an entry with a different name untouched. -/
theorem switchEntry_not_matching {m : String} {s : Nat → Option Nat} {n : Nat}
    {e : ModelEntry} (hm : e.name ≠ m) :
    switchEntry m s (n, clearPid e) = clearPid e := by
  unfold switchEntry
  have : ((clearPid e).name == m) = false := beq_false_of_ne hm
  simp [this]

/-- After `terminate` cleared every pid, the switch loop can leave live
handles only at entries carrying the requested name. -/
theorem countLive_switch (m : String) (s : Nat → Option Nat) :
    ∀ (l : List ModelEntry) (n : Nat),
      ((List.enumFrom n (l.map clearPid)).map (switchEntry m s)).countP localLive
        ≤ l.countP (fun e => e.name == m) := by
  intro l
  induction l with
  | nil => intro n; simp [List.enumFrom]
  | cons e t ih =>
    intro n
    simp only [List.map_cons, List.enumFrom, List.countP_cons]
    by_cases hm : e.name = m
    · have h1 := ih (n + 1)
      have hhead :
          (if localLive (switchEntry m s (n, clearPid e)) then 1 else 0) ≤ 1 := by
        split <;> omega
      simp only [beq_iff_eq, hm, if_true]
      omega
    · have hlive : localLive (switchEntry m s (n, clearPid e)) = false := by
        rw [switchEntry_not_matching hm]; simp [localLive, clearPid]
      have hb : (e.name == m) = false := beq_false_of_ne hm
      simp only [hlive, hb, if_false, Nat.add_zero]
      exact ih (n + 1)

/-- The switch loop never changes entry names. -/
theorem names_switch (m : String) (s : Nat → Option Nat) :
    ∀ (l : List ModelEntry) (n : Nat),
      (((List.enumFrom n (l.map clearPid)).map (switchEntry m s)).map (fun e => e.name))
        = l.map (fun e => e.name) := by
  intro l
  induction l with
  | nil => intro n; simp [List.enumFrom]
  | cons e t ih =>
    intro n
    simp only [List.map_cons, List.enumFrom]
    rw [ih (n + 1)]
    have : (switchEntry m s (n, clearPid e)).name = e.name := by
      unfold switchEntry
      split <;> simp [clearPid]
    rw [this]

/-- When no entry carries the requested name the switch loop is the
identity on the terminated registry. -/
theorem switch_not_found (m : String) (s : Nat → Option Nat) :
    ∀ (l : List ModelEntry) (n : Nat), (∀ e ∈ l, e.name ≠ m) →
      (List.enumFrom n (l.map clearPid)).map (switchEntry m s) = l.map clearPid := by
  intro l
  induction l with
  | nil => intro n _; simp [List.enumFrom]
  | cons e t ih =>
    intro n h
    simp only [List.map_cons, List.enumFrom]
    rw [switchEntry_not_matching (h e (List.mem_cons_self e t)),
      ih (n + 1) (fun x hx => h x (List.mem_cons_of_mem e hx))]

/-- A `PUT /model/{name}` with an unknown name (and a well-formed active
pointer): every pid is cleared, the active pointer is untouched, the
mutated configuration is stored, and `False` is returned. -/
theorem modelPut_not_found {cfg : Config} {act : ModelEntry} {marg : String}
    (s : Nat → Option Nat)
    (hstrip : stripQuotes marg = marg)
    (hact : activeEntry cfg = some act)
    (habs : marg ∉ cfg.model.map (fun e => e.name)) :
    modelPut marg s cfg
      = some (false, { api := cfg.api, model := cfg.model.map clearPid }) := by
  have hmem := activeEntry_mem hact
  have hnotin : ∀ e ∈ cfg.model, e.name ≠ marg := by
    intro e he heq
    exact habs (by rw [← heq]; exact List.mem_map_of_mem _ he)
  have hne : act.name ≠ marg := hnotin act hmem.1
  have hany1 : ((terminateModels cfg).model.any fun e => e.name == marg) = false := by
    apply List.any_eq_false.mpr
    intro e he
    simp only [terminateModels, List.mem_map] at he
    obtain ⟨x, hx, rfl⟩ := he
    simp only [beq_iff_eq]
    exact hnotin x hx
  simp only [terminateModels] at hany1
  simp only [modelPut, hact, hstrip]
  rw [if_neg hne]
  simp only [terminateModels]
  rw [switch_not_found marg s cfg.model 0 hnotin, hany1]
  rfl

/-- A `PUT /model/{name}` with a known name returns `True` and stores a
configuration whose active pointer is that name. -/
theorem modelPut_found {cfg : Config} {act : ModelEntry} {marg : String}
    (s : Nat → Option Nat)
    (hstrip : stripQuotes marg = marg)
    (hact : activeEntry cfg = some act)
    (hmem : marg ∈ cfg.model.map (fun e => e.name)) :
    ∃ c, modelPut marg s cfg = some (true, c) ∧ c.api.model = marg := by
  have hspec := activeEntry_mem hact
  by_cases hne : act.name = marg
  · refine ⟨cfg, ?_, hspec.2.symm.trans hne⟩
    simp only [modelPut, hact, hstrip]
    rw [if_pos hne]
  · have hany1 : ((cfg.model.map clearPid).any fun e => e.name == marg) = true := by
      apply List.any_eq_true.mpr
      obtain ⟨e, he, hname⟩ := List.mem_map.mp hmem
      exact ⟨clearPid e, List.mem_map_of_mem _ he, beq_iff_eq.mpr hname⟩
    refine ⟨{ api := { cfg.api with model := marg },
              model := (List.enumFrom 0 (cfg.model.map clearPid)).map (switchEntry marg s) },
            ?_, rfl⟩
    simp only [modelPut, hact, hstrip]
    rw [if_neg hne]
    simp only [terminateModels, hany1, if_true]

/-- One `PUT /model` call never changes the list of registry names. -/
theorem applyPut_names (m : String) (s : Nat → Option Nat) (cfg : Config) :
    (applyPut m s cfg).model.map (fun e => e.name) = cfg.model.map (fun e => e.name) := by
  unfold applyPut
  cases hA : modelPut m s cfg with
  | none => rfl
  | some r =>
    obtain ⟨b, c⟩ := r
    simp only []
    unfold modelPut at hA
    cases hB : activeEntry cfg with
    | none => rw [hB] at hA; simp at hA
    | some act =>
      rw [hB] at hA
      simp only [] at hA
      by_cases hne : act.name = stripQuotes m
      · rw [if_pos hne] at hA
        have hc : c = cfg := by
          injection hA with h1; injection h1 with h2 h3; exact h3.symm
        rw [hc]
      · rw [if_neg hne] at hA
        have hc : c = { api := { (terminateModels cfg).api with
                          model := if (terminateModels cfg).model.any (fun e => e.name == stripQuotes m)
                                   then stripQuotes m else (terminateModels cfg).api.model },
                        model := (List.enumFrom 0 (terminateModels cfg).model).map
                          (switchEntry (stripQuotes m) s) } := by
          injection hA with h1
          injection h1 with h2 h3
          exact h3.symm
        rw [hc]
        simp only [terminateModels]
        exact names_switch (stripQuotes m) s cfg.model 0

/-- One `PUT /model` call preserves the at-most-one-live-local invariant,
given unique registry names. -/
theorem applyPut_live (m : String) (s : Nat → Option Nat) (cfg : Config)
    (hnd : (cfg.model.map (fun e => e.name)).Nodup)
    (hlive : liveLocal cfg ≤ 1) :
    liveLocal (applyPut m s cfg) ≤ 1 := by
  unfold applyPut
  cases hA : modelPut m s cfg with
  | none => exact hlive
  | some r =>
    obtain ⟨b, c⟩ := r
    simp only []
    unfold modelPut at hA
    cases hB : activeEntry cfg with
    | none => rw [hB] at hA; simp at hA
    | some act =>
      rw [hB] at hA
      simp only [] at hA
      by_cases hne : act.name = stripQuotes m
      · rw [if_pos hne] at hA
        have hc : c = cfg := by
          injection hA with h1; injection h1 with h2 h3; exact h3.symm
        rw [hc]; exact hlive
      · rw [if_neg hne] at hA
        have hc : c = { api := { (terminateModels cfg).api with
                          model := if (terminateModels cfg).model.any (fun e => e.name == stripQuotes m)
                                   then stripQuotes m else (terminateModels cfg).api.model },
                        model := (List.enumFrom 0 (terminateModels cfg).model).map
                          (switchEntry (stripQuotes m) s) } := by
          injection hA with h1
          injection h1 with h2 h3
          exact h3.symm
        rw [hc]
        unfold liveLocal
        simp only [terminateModels]
        calc ((List.enumFrom 0 (cfg.model.map clearPid)).map
                (switchEntry (stripQuotes m) s)).countP localLive
            ≤ cfg.model.countP (fun e => e.name == stripQuotes m) :=
              countLive_switch (stripQuotes m) s cfg.model 0
          _ ≤ 1 := countP_name_le_one (stripQuotes m) cfg.model hnd

/-! Helper lemmas about the header dictionary operations of `relay`. -/

/-- Setting a key makes it look up to the new value. -/
theorem lookup_dictSet_self (k v : String) :
    ∀ l : List (String × String), (dictSet k v l).lookup k = some v := by
  intro l
  induction l with
  | nil => simp [dictSet, List.lookup]
  | cons p t ih =>
    by_cases h : p.1 = k
    · simp [dictSet, h, List.lookup]
    · have hb : (k == p.1) = false := beq_false_of_ne (fun he => h he.symm)
      simp [dictSet, h, List.lookup, hb, ih]

/-- Setting a key leaves every other key's lookup unchanged. -/
theorem lookup_dictSet_ne (k v a : String) (hne : a ≠ k) :
    ∀ l : List (String × String), (dictSet k v l).lookup a = l.lookup a := by
  intro l
  induction l with
  | nil => simp [dictSet, List.lookup, beq_false_of_ne hne]
  | cons p t ih =>
    by_cases h : p.1 = k
    · have hb : (a == k) = false := beq_false_of_ne hne
      have hb2 : (a == p.1) = false := beq_false_of_ne (fun he => hne (he.trans h))
      simp [dictSet, h, List.lookup, hb, hb2]
    · simp only [dictSet, if_neg h, List.lookup]
      cases hb : (a == p.1) with
      | true => rfl
      | false => exact ih

/-- A popped key looks up to nothing. -/
theorem lookup_dictRemove_self (k : String) :
    ∀ l : List (String × String), (dictRemove k l).lookup k = none := by
  intro l
  induction l with
  | nil => rfl
  | cons p t ih =>
    simp only [dictRemove, List.filter_cons] at ih ⊢
    by_cases h : p.1 = k
    · have hb : (p.1 != k) = false := by simp [h]
      simp only [hb, Bool.false_eq_true, if_false]
      exact ih
    · have hb : (p.1 != k) = true := bne_iff_ne.mpr h
      have hb2 : (k == p.1) = false := beq_false_of_ne (fun he => h he.symm)
      simp only [hb, if_true, List.lookup, hb2]
      exact ih

/-- Apart from the key being set, the dictionary is unchanged by a set. -/
theorem dictRemove_dictSet_self (k v : String) :
    ∀ l : List (String × String), dictRemove k (dictSet k v l) = dictRemove k l := by
  intro l
  induction l with
  | nil =>
    have hb : ((k, v).1 != k) = false := by simp
    simp [dictSet, dictRemove, List.filter_cons, hb]
  | cons p t ih =>
    by_cases h : p.1 = k
    · have hb : ((k, v).1 != k) = false := by simp
      have hb2 : (p.1 != k) = false := by simp [h]
      simp only [dictSet, if_pos h, dictRemove, List.filter_cons, hb, hb2,
        Bool.false_eq_true, if_false]
    · have hb : (p.1 != k) = true := bne_iff_ne.mpr h
      simp only [dictSet, if_neg h, dictRemove, List.filter_cons, hb, if_true]
      simp only [dictRemove] at ih
      rw [ih]

/-! Concrete fixtures used by the witnesses. -/

/-- A local entry with a running process, the active model of `baseCfg`. -/
def entryA : ModelEntry :=
  { name := "a", file := some "a.gguf", host := "127.0.0.1", port := 8001,
    auth := "sso-key", key := "k1", pid := some 42 }

/-- A second local entry, not running. -/
def entryB : ModelEntry :=
  { name := "b", file := some "b.gguf", host := "127.0.0.1", port := 8002,
    auth := "sso-key", key := "k2", pid := none }

/-- A remote-only entry (no backing file). -/
def entryR : ModelEntry :=
  { name := "gpt", file := none, host := "api.openai.com", port := 443,
    auth := "Bearer", key := "sk", pid := none }

/-- A well-formed configuration: three models with unique names, active
model `a` running. -/
def baseCfg : Config :=
  { api := { host := "0.0.0.0", port := 9000, model := "a", pid := none },
    model := [entryA, entryB, entryR] }

/-- A configuration whose active-model pointer names no registry entry. -/
def ghostCfg : Config :=
  { api := { host := "0.0.0.0", port := 9000, model := "ghost", pid := none },
    model := [entryA, entryB, entryR] }

/-- A Popen oracle that always fails (Popen raises). -/
def startNone : Nat → Option Nat := fun _ => none

/-- A Popen oracle that always succeeds with pid 9. -/
def startOk9 : Nat → Option Nat := fun _ => some 9

/-- A network oracle that always answers 200. -/
def netOk200 : NetRequest → NetResult := fun _ => NetResult.ok 200 [] "ok"

/-- The configuration stored by `PUT /model/b` on `baseCfg` when starting
the new process fails: pointer moved to `b`, every pid cleared. -/
def afterStartFailCfg : Config :=
  { api := { host := "0.0.0.0", port := 9000, model := "b", pid := none },
    model :=
      [ { name := "a", file := some "a.gguf", host := "127.0.0.1", port := 8001,
          auth := "sso-key", key := "k1", pid := none },
        { name := "b", file := some "b.gguf", host := "127.0.0.1", port := 8002,
          auth := "sso-key", key := "k2", pid := none },
        { name := "gpt", file := none, host := "api.openai.com", port := 443,
          auth := "Bearer", key := "sk", pid := none } ] }

/-- The well-formed completion body of the spec's gateway example:
`{"choices":[{"message":{"content":"hello"}}]}`. -/
def helloCompletion : Json :=
  Json.obj [("choices", Json.arr [Json.obj [("message", Json.obj [("content", Json.str "hello")])]])]

/-- A completion body missing `choices`: `{"error":"boom"}`. -/
def malformedCompletion : Json :=
  Json.obj [("error", Json.str "boom")]

/-! The claims. -/

/-- Claim C1: over every sequence of `PUT /model/{name}` calls executed
sequentially, at most one local entry (backing file present) holds a live
process handle (non-None pid) at any time, provided registry names are
unique (the spec's data-model assumption) and the starting state satisfies
the bound.  Each switch runs `terminate` over the whole registry — clearing
every pid — before starting at most one new process; a call whose
`configLoad` crashes leaves the state unchanged.  Since `ops` is arbitrary,
the bound holds after every prefix of the sequence. -/
theorem switchSeq_at_most_one_live (cfg : Config) (ops : List (String × (Nat → Option Nat)))
    (hnd : (cfg.model.map (fun e => e.name)).Nodup)
    (hlive : liveLocal cfg ≤ 1) :
    liveLocal (switchSeq cfg ops) ≤ 1 := by
  induction ops generalizing cfg with
  | nil => exact hlive
  | cons op t ih =>
    have h1 : switchSeq cfg (op :: t) = switchSeq (applyPut op.1 op.2 cfg) t := rfl
    rw [h1]
    apply ih
    · rw [applyPut_names]; exact hnd
    · exact applyPut_live op.1 op.2 cfg hnd hlive

/-- A concrete switch sequence: to local `b`, to remote `gpt`, then to an
unknown name. -/
def opsW : List (String × (Nat → Option Nat)) :=
  [("b", fun _ => some 55), ("gpt", fun _ => some 66), ("nope", fun _ => some 77)]

/-- Witness for C1 at a concrete configuration and switch sequence. -/
theorem switchSeq_at_most_one_live_witness :
    ((baseCfg.model.map (fun e => e.name)).Nodup ∧ liveLocal baseCfg ≤ 1) ∧
    liveLocal (switchSeq baseCfg opsW) ≤ 1 :=
  ⟨⟨by decide, by decide⟩, switchSeq_at_most_one_live baseCfg opsW (by decide) (by decide)⟩

/-- Claim C2: for the gateway `GET /query/{model}/{prompt}` — when history
after appending the prompt is `[{user, "hi"}]`, the model switch succeeds
(truthy response) and the completion call returns
`{"choices":[{"message":{"content":"hello"}}]}`, the handler returns
`"hello"`, in-memory history becomes `[{user,"hi"}, {system,"hello"}]`, and
both turns are passed to the History Store. -/
theorem query_happy_path_hello :
    query "m" "hi" "100" [] (Json.bool true) helloCompletion
      = (Json.str "hello",
         [⟨"user", Json.str "hi"⟩, ⟨"system", Json.str "hello"⟩],
         [⟨"m", "100", "user", Json.str "hi"⟩, ⟨"m", "100", "system", Json.str "hello"⟩]) := rfl

/-- Claim C3 (code bug, evaluation at the failing input): when the
completion body is `{"error":"boom"}` — no `choices` — the handler does NOT
surface a malformed-response error: the `KeyError` raised by
`response['choices'][0]['message']['content']` is swallowed by the blanket
`except`, the handler returns the raw upstream object, appends it as a
`{role: system}` turn to the in-memory history (the object is truthy), and
stores that turn in the History Store — each point contradicting the
claim's required behaviour. -/
theorem query_missing_choices_not_surfaced :
    query "m" "hi" "100" [] (Json.bool true) malformedCompletion
      = (malformedCompletion,
         [⟨"user", Json.str "hi"⟩, ⟨"system", malformedCompletion⟩],
         [⟨"m", "100", "user", Json.str "hi"⟩, ⟨"m", "100", "system", malformedCompletion⟩]) := rfl

/-- Claim C4 (code bug, evaluation at the failing input): switching
`baseCfg` from running local `a` to local `b` when Popen fails
(`startNone`) stops the old process and records no live handle — but the
handler answers boolean success `True` instead of surfacing a
model-start-failure error: `run_llm` swallows the Popen exception and
`finally`-returns the incoming pid (`None` after `terminate`), so the
response stays `True`. -/
theorem modelPut_start_failure_returns_success :
    modelPut "b" startNone baseCfg = some (true, afterStartFailCfg) ∧
    liveLocal afterStartFailCfg = 0 := ⟨rfl, rfl⟩

/-- Claim C5: `PUT /model/{name}` (for a quote-free name and a well-formed
active pointer) fails with boolean `False` and leaves the active-model
pointer unchanged when the name is not in the registry, and succeeds with
boolean `True`, updating the pointer to the name and persisting (the
returned configuration is the one passed to `configStore`), when it is. -/
theorem modelPut_setActive_semantics (cfg : Config) (act : ModelEntry) (marg : String)
    (s : Nat → Option Nat)
    (hstrip : stripQuotes marg = marg)
    (hact : activeEntry cfg = some act) :
    (marg ∉ cfg.model.map (fun e => e.name) →
       ∃ c, modelPut marg s cfg = some (false, c) ∧ c.api.model = cfg.api.model) ∧
    (marg ∈ cfg.model.map (fun e => e.name) →
       ∃ c, modelPut marg s cfg = some (true, c) ∧ c.api.model = marg) := by
  constructor
  · intro habs
    exact ⟨_, modelPut_not_found s hstrip hact habs, rfl⟩
  · intro hmem
    exact modelPut_found s hstrip hact hmem

/-- Witness for C5: both branches at the concrete `baseCfg`, for the known
name `b` and the unknown name `zzz`. -/
theorem modelPut_setActive_semantics_witness :
    (stripQuotes "b" = "b" ∧ stripQuotes "zzz" = "zzz" ∧ activeEntry baseCfg = some entryA) ∧
    (∃ c, modelPut "b" startOk9 baseCfg = some (true, c) ∧ c.api.model = "b") ∧
    (∃ c, modelPut "zzz" startOk9 baseCfg = some (false, c) ∧ c.api.model = baseCfg.api.model) :=
  ⟨⟨rfl, rfl, rfl⟩,
   (modelPut_setActive_semantics baseCfg entryA "b" startOk9 rfl rfl).2 (by decide),
   (modelPut_setActive_semantics baseCfg entryA "zzz" startOk9 rfl rfl).1 (by decide)⟩

/-- Claim C6: with a well-formed active entry, a transport failure of the
backend call makes `relay` return a 500 response whose body is the error
text, while a backend answer of any status (the oracle's `s` is arbitrary,
2xx or not) is passed through to the caller with status, headers and body
unchanged. -/
theorem relay_failure_semantics (cfg : Config) (act : ModelEntry)
    (method path body msg rb : String)
    (inHeaders rh : List (String × String)) (s : Nat)
    (hact : activeEntry cfg = some act) :
    relay cfg method path inHeaders body (fun _ => NetResult.failed msg)
      = RelayResult.response 500 [] msg ∧
    relay cfg method path inHeaders body (fun _ => NetResult.ok s rh rb)
      = RelayResult.response s rh rb := by
  constructor <;> simp [relay, hact]

/-- Witness for C6 at a concrete configuration: a raised transport error
and a passed-through 404. -/
theorem relay_failure_semantics_witness :
    activeEntry baseCfg = some entryA ∧
    (relay baseCfg "POST" "v1/chat/completions" [("host", "gw")] "{}"
        (fun _ => NetResult.failed "timeout")
      = RelayResult.response 500 [] "timeout" ∧
     relay baseCfg "POST" "v1/chat/completions" [("host", "gw")] "{}"
        (fun _ => NetResult.ok 404 [("x-req", "1")] "not found")
      = RelayResult.response 404 [("x-req", "1")] "not found") :=
  ⟨rfl, relay_failure_semantics baseCfg entryA "POST" "v1/chat/completions" "{}"
    "timeout" "not found" [("host", "gw")] [("x-req", "1")] 404 rfl⟩

/-- Claim C7: `relay` consults the network exactly on the request built
from the active entry, and that request targets the entry's host and port
at the given sub-path with the inbound method and body; its headers are the
inbound ones with `host` removed (`lookup "host" = none`), every other
binding preserved in place (removing the injected `authorization` key from
both sides leaves equal dictionaries), and `authorization` set to exactly
`auth ++ " " ++ key`; the scheme is plain `http` exactly when the entry's
auth is `sso-key`, `https` otherwise. -/
theorem relay_forwards_request_verbatim (cfg : Config) (e : ModelEntry)
    (method path body : String) (inHeaders : List (String × String))
    (net : NetRequest → NetResult)
    (hact : activeEntry cfg = some e) :
    relay cfg method path inHeaders body net
      = (match net (buildForward e method path inHeaders body) with
         | NetResult.ok s h b => RelayResult.response s h b
         | NetResult.failed msg => RelayResult.response 500 [] msg) ∧
    (buildForward e method path inHeaders body).host = e.host ∧
    (buildForward e method path inHeaders body).port = e.port ∧
    (buildForward e method path inHeaders body).path = path ∧
    (buildForward e method path inHeaders body).method = method ∧
    (buildForward e method path inHeaders body).body = body ∧
    (buildForward e method path inHeaders body).headers.lookup "authorization"
      = some (e.auth ++ " " ++ e.key) ∧
    (buildForward e method path inHeaders body).headers.lookup "host" = none ∧
    dictRemove "authorization" (buildForward e method path inHeaders body).headers
      = dictRemove "authorization" (dictRemove "host" inHeaders) ∧
    (buildForward e method path inHeaders body).scheme
      = (if e.auth = "sso-key" then "http" else "https") := by
  refine ⟨?_, rfl, rfl, rfl, rfl, rfl, ?_, ?_, ?_, rfl⟩
  · simp [relay, hact]
  · exact lookup_dictSet_self "authorization" (e.auth ++ " " ++ e.key) _
  · rw [show (buildForward e method path inHeaders body).headers
        = dictSet "authorization" (e.auth ++ " " ++ e.key) (dictRemove "host" inHeaders) from rfl]
    rw [lookup_dictSet_ne "authorization" (e.auth ++ " " ++ e.key) "host" (by decide)]
    exact lookup_dictRemove_self "host" inHeaders
  · exact dictRemove_dictSet_self "authorization" (e.auth ++ " " ++ e.key) _

/-- Witness for C7 at a concrete configuration: the `sso-key` entry yields
header `authorization: sso-key k1`, no `host` header, plain `http`. -/
theorem relay_forwards_request_verbatim_witness :
    activeEntry baseCfg = some entryA ∧
    ((buildForward entryA "POST" "v1/chat/completions"
        [("host", "gw"), ("accept", "app/json")] "{}").headers.lookup "authorization"
      = some "sso-key k1" ∧
     (buildForward entryA "POST" "v1/chat/completions"
        [("host", "gw"), ("accept", "app/json")] "{}").headers.lookup "host" = none ∧
     (buildForward entryA "POST" "v1/chat/completions"
        [("host", "gw"), ("accept", "app/json")] "{}").scheme = "http") := by
  have h := relay_forwards_request_verbatim baseCfg entryA "POST" "v1/chat/completions" "{}"
    [("host", "gw"), ("accept", "app/json")] netOk200 rfl
  exact ⟨rfl, h.2.2.2.2.2.2.1, h.2.2.2.2.2.2.2.1, h.2.2.2.2.2.2.2.2.2⟩

/-- Claim C8: when the active-model pointer names no registry entry,
`relay` fails (the `configLoad` crash, the spec's NoActiveModel condition)
for EVERY network oracle — the result does not depend on `net` and the
definition never applies it, so no network call to a backend is
attempted. -/
theorem relay_no_active_model (cfg : Config) (method path body : String)
    (inHeaders : List (String × String)) (net : NetRequest → NetResult)
    (hnone : activeEntry cfg = none) :
    relay cfg method path inHeaders body net = RelayResult.noActiveModel := by
  simp [relay, hnone]

/-- Witness for C8 at a configuration whose pointer names no entry. -/
theorem relay_no_active_model_witness :
    activeEntry ghostCfg = none ∧
    relay ghostCfg "GET" "v1/models" [] "" netOk200 = RelayResult.noActiveModel :=
  ⟨rfl, relay_no_active_model ghostCfg "GET" "v1/models" "" [] netOk200 rfl⟩

/-- Claim C10: a `PUT /model/{name}` whose (quote-free) name differs from
the active model's and is absent from the registry still clears every
recorded pid (`terminate` runs first) and persists that mutated
configuration (the returned configuration is the one handed to
`configStore`) while returning the boolean failure `False` with the
active-model pointer unchanged — the failure path mutates the
process-handle state. -/
theorem modelPut_unknown_name_frame_effect (cfg : Config) (act : ModelEntry) (marg : String)
    (s : Nat → Option Nat)
    (hstrip : stripQuotes marg = marg)
    (hact : activeEntry cfg = some act)
    (habs : marg ∉ cfg.model.map (fun e => e.name)) :
    modelPut marg s cfg
      = some (false, { api := cfg.api, model := cfg.model.map clearPid }) :=
  modelPut_not_found s hstrip hact habs

/-- Witness for C10 at `baseCfg` (whose entry `a` has a live pid) and the
unknown name `zzz`. -/
theorem modelPut_unknown_name_frame_effect_witness :
    (stripQuotes "zzz" = "zzz" ∧ activeEntry baseCfg = some entryA ∧
     "zzz" ∉ baseCfg.model.map (fun e => e.name)) ∧
    modelPut "zzz" startOk9 baseCfg
      = some (false, { api := baseCfg.api, model := baseCfg.model.map clearPid }) :=
  ⟨⟨rfl, rfl, by decide⟩,
   modelPut_unknown_name_frame_effect baseCfg entryA "zzz" startOk9 rfl rfl (by decide)⟩

end LlmSvc
